import Mathlib

/-!
# Beverage notifier controller: one wake cycle of `setup()`

A shallow embedding of `src/main.cpp`.  The firmware is a single procedure,
`setup()`, that talks to the outside world through vendor calls and that
shares one global flag, `deviceConnected`, with two BLE server callbacks.

Modelling decisions:

* Every vendor call issued by `setup()` and every read of `deviceConnected`
  is one atomic step.  The environment owns a schedule that says which peer
  events the BLE stack dispatches just before each step; the callbacks run
  at those instants and write the flag.
* The run is recorded as a chronological trace of entries: callback
  dispatches, flag reads and vendor calls.
* `float` values are represented by exact rationals: rounding of IEEE single
  precision is not modelled.  `String(float)` belongs to the Arduino core and
  is a parameter of the environment.
* `int` arithmetic on the sleep duration is 32-bit two-complement, made
  explicit by `wrapInt32`.
-/

namespace BeverageNotifier

/-! ## Compile-time constants (main.cpp lines 24-36) -/

def SERVICE_UUID : String := "4fafc201-1fb5-459e-8fcc-c5c9c331914b"
def CHARACTERISTIC_UUID : String := "beb5483e-36e1-4688-b7f5-ea07361b26a8"

def INDICATOR_LED : Nat := 2
def TEMP_SENSOR : Nat := 15

def SLEEP_DURATION : Int := 15
def NUM_READINGS : Nat := 10
def ADC_RESOLUTION : Int := 4095
def V_REF : ℚ := 33 / 10
def LM35_SCALE : ℚ := 1 / 100
def ADVERTISING_TIME : Nat := 60
def PROCESS_NOTIFICAION_TIME : Nat := 1000

/-! ## Data model -/

/-- Arduino pin modes used by the sketch. -/
inductive PinMode
  | INPUT
  | OUTPUT
  deriving DecidableEq, Repr

/-- Arduino logic levels. -/
inductive Level
  | LOW
  | HIGH
  deriving DecidableEq, Repr

/-- Peer lifecycle events delivered by the BLE stack. -/
inductive PeerEvent
  | attach
  | detach
  deriving DecidableEq, Repr

/-- Vendor calls issued by `setup()`, in the vocabulary of the source. -/
inductive Action
  | pinMode (pin : Nat) (mode : PinMode)
  | serialBegin (baud : Nat)
  | bleInit (name : String)
  | createServer
  | setCallbacks
  | createService (uuid : String)
  | createCharacteristic (uuid : String) (propNotify propRead : Bool)
  | addDescriptor2902
  | getAdvertising
  | setMinPreferred (v : Nat)
  | serviceStart
  | digitalWrite (pin : Nat) (level : Level)
  | advertisingStart
  | delay (ms : Nat)
  | serialPrintln (msg : String)
  | serialPrint (msg : String)
  | analogRead (pin : Nat)
  | setValue (value : String)
  | notify
  | enableTimerWakeup (us : Nat)
  | deepSleepStart
  deriving DecidableEq, Repr

/-- One entry of the chronological run record. -/
inductive Entry
  | peer (e : PeerEvent)
  | cbPrintln (msg : String)
  | poll (b : Bool)
  | check (b : Bool)
  | act (a : Action)
  deriving DecidableEq, Repr

/-- The environment of one wake cycle: the peer schedule (events dispatched
just before atomic step number `c`), the raw value returned by the `i`-th
`analogRead`, and the Arduino `String(float)` conversion. -/
structure Env where
  sched : Nat → List PeerEvent
  adc : Nat → Int
  floatToString : ℚ → String

/-- Volatile program state plus the bookkeeping of the run. -/
structure State where
  deviceConnected : Bool
  callbacksSet : Bool
  clock : Nat
  reads : Nat
  trace : List Entry

/-- State at power-on: `bool deviceConnected = false` (line 41). -/
def initial : State :=
  { deviceConnected := false, callbacksSet := false, clock := 0, reads := 0, trace := [] }

/-! ## Server callbacks (lines 44-56) -/

/-- Callback `MyServerCallbacks::onConnect`. -/
def onConnect (s : State) : State :=
  { s with deviceConnected := true,
           trace := s.trace ++ [Entry.cbPrintln "Connected to a device"] }

/-- Callback `MyServerCallbacks::onDisconnect`. -/
def onDisconnect (s : State) : State :=
  { s with deviceConnected := false,
           trace := s.trace ++ [Entry.cbPrintln "Disconnected from a device"] }

/-- The stack dispatches one peer event to the registered callbacks. -/
def dispatch (s : State) (e : PeerEvent) : State :=
  let s1 := { s with trace := s.trace ++ [Entry.peer e] }
  match e with
  | PeerEvent.attach => onConnect s1
  | PeerEvent.detach => onDisconnect s1

/-- Events scheduled for the current instant are dispatched (only once the
callbacks are registered), then the step counter advances. -/
def deliver (env : Env) (s : State) : State :=
  let s1 := if s.callbacksSet then (env.sched s.clock).foldl dispatch s else s
  { s1 with clock := s1.clock + 1 }

/-- One vendor call issued by `setup()`. -/
def emit (env : Env) (a : Action) (s : State) : State :=
  let s1 := deliver env s
  { s1 with trace := s1.trace ++ [Entry.act a] }

/-- Read of `deviceConnected` in the advertising loop (line 103). -/
def pollFlag (env : Env) (s : State) : Bool × State :=
  let s1 := deliver env s
  (s1.deviceConnected, { s1 with trace := s1.trace ++ [Entry.poll s1.deviceConnected] })

/-- Read of `deviceConnected` after the loop (line 120). -/
def checkFlag (env : Env) (s : State) : Bool × State :=
  let s1 := deliver env s
  (s1.deviceConnected, { s1 with trace := s1.trace ++ [Entry.check s1.deviceConnected] })

/-- The call `pServer->setCallbacks(new MyServerCallbacks())` (line 74). -/
def setCallbacks (env : Env) (s : State) : State :=
  let s1 := emit env Action.setCallbacks s
  { s1 with callbacksSet := true }

/-- The call `analogRead(pin)`: returns the next raw reading. -/
def analogRead (env : Env) (pin : Nat) (s : State) : Int × State :=
  let s1 := emit env (Action.analogRead pin) s
  (env.adc s1.reads, { s1 with reads := s1.reads + 1 })

/-! ## Machine arithmetic -/

/-- Result of 32-bit signed `int` arithmetic on the exact value `x`. -/
def wrapInt32 (x : Int) : Int := (x + 2 ^ 31) % 2 ^ 32 - 2 ^ 31

/-- Conversion of an `int` to the `uint64_t` parameter of
`esp_sleep_enable_timer_wakeup`. -/
def toUInt64 (x : Int) : Nat := (x % 2 ^ 64).toNat

/-- The argument expression `SLEEP_DURATION * 1000000` (line 151). -/
def sleepMicros : Nat := toUInt64 (wrapInt32 (SLEEP_DURATION * 1000000))

/-! ## The body of `setup()` -/

/-- Peripheral and BLE bootstrap (lines 60-98). -/
def bootstrap (env : Env) (s : State) : State :=
  let s := emit env (Action.pinMode TEMP_SENSOR PinMode.INPUT) s
  let s := emit env (Action.pinMode INDICATOR_LED PinMode.OUTPUT) s
  let s := emit env (Action.serialBegin 9600) s
  let device_name : String := "crud.sh::beverage_notifier"
  let s := emit env (Action.bleInit device_name) s
  let s := emit env Action.createServer s
  let s := setCallbacks env s
  let s := emit env (Action.createService SERVICE_UUID) s
  let s := emit env (Action.createCharacteristic CHARACTERISTIC_UUID true true) s
  let s := emit env Action.addDescriptor2902 s
  let s := emit env Action.getAdvertising s
  let s := emit env (Action.setMinPreferred 0) s
  emit env Action.serviceStart s

/-- The advertising loop (lines 102-113).  The first argument is the number of
iterations still allowed, `ADVERTISING_TIME - i`; the body does not use `i`. -/
def advertise (env : Env) : Nat → State → State
  | 0, s => s
  | n + 1, s =>
    let r := pollFlag env s
    if r.1 then
      r.2
    else
      let s := emit env (Action.digitalWrite INDICATOR_LED Level.HIGH) r.2
      let s := emit env Action.advertisingStart s
      let s := emit env (Action.delay 1000) s
      advertise env n s

/-- Per-sample conversion, raw reading to volts (line 130). -/
def toVoltage (reading : Int) : ℚ := (reading : ℚ) * (V_REF / (ADC_RESOLUTION : ℚ))

/-- Per-sample conversion, volts to degrees Celsius (line 132). -/
def toTemperature (voltage : ℚ) : ℚ := voltage / LM35_SCALE

/-- The sampling loop (lines 126-135); the first argument is the number of
iterations still to run, `NUM_READINGS - i`. -/
def sampleLoop (env : Env) : Nat → ℚ → State → ℚ × State
  | 0, total, s => (total, s)
  | n + 1, total, s =>
    let r := analogRead env TEMP_SENSOR s
    let reading := r.1
    let voltage := toVoltage reading
    let temperature := toTemperature voltage
    let total := total + temperature
    let s := emit env (Action.delay 10) r.2
    sampleLoop env n total s

/-- Sampling part of the connected branch (lines 121-137): returns `average`. -/
def sampleAverage (env : Env) (s : State) : ℚ × State :=
  let total : ℚ := 0
  let s := emit env (Action.serialPrintln "Prepare getting averages...") s
  let r := sampleLoop env NUM_READINGS total s
  let average := r.1 / (NUM_READINGS : ℚ)
  (average, r.2)

/-- Publishing part of the connected branch (lines 138-146). -/
def publish (env : Env) (average : ℚ) (s : State) : State :=
  let value := env.floatToString average
  let s := emit env (Action.setValue value) s
  let s := emit env Action.notify s
  let s := emit env (Action.serialPrint value) s
  emit env (Action.delay PROCESS_NOTIFICAION_TIME) s

/-- The connected branch (lines 120-147). -/
def connectedBranch (env : Env) (s : State) : State :=
  let r := sampleAverage env s
  publish env r.1 r.2

/-- The sleep transition (lines 151-152). -/
def goToSleep (env : Env) (s : State) : State :=
  let s := emit env (Action.enableTimerWakeup sleepMicros) s
  emit env Action.deepSleepStart s

/-- State at the end of the advertising loop (line 113). -/
def afterAdvertising (env : Env) : State :=
  advertise env ADVERTISING_TIME (bootstrap env initial)

/-- State and value of the flag read of line 120. -/
def afterCheck (env : Env) : Bool × State :=
  checkFlag env (emit env (Action.digitalWrite INDICATOR_LED Level.LOW) (afterAdvertising env))

/-- The whole of `setup()` (lines 58-153). -/
def setup (env : Env) : State :=
  let r := afterCheck env
  let s := if r.1 then connectedBranch env r.2 else r.2
  goToSleep env s

/-! ## Observations on a run -/

/-- Entries produced by the sequential program, as opposed to callbacks. -/
def Entry.isProgram : Entry → Bool
  | Entry.peer _ => false
  | Entry.cbPrintln _ => false
  | _ => true

/-- The vendor call of an entry, if it is one. -/
def Entry.action? : Entry → Option Action
  | Entry.act a => some a
  | _ => none

/-- The flag value of a loop poll entry, if it is one. -/
def Entry.poll? : Entry → Option Bool
  | Entry.poll b => some b
  | _ => none

/-- Program entries of a trace, callbacks removed. -/
def progOf (t : List Entry) : List Entry := t.filter Entry.isProgram

/-- Vendor calls of a trace, in order. -/
def actionsOf (t : List Entry) : List Action := t.filterMap Entry.action?

/-- Flag values seen by the polls of the advertising loop, in order. -/
def pollsOf (t : List Entry) : List Bool := t.filterMap Entry.poll?

/-- The action trace of `setup()`. -/
def setupActions (env : Env) : List Action := actionsOf (setup env).trace

/-- The flag values observed by the advertising loop during `setup()`. -/
def loopPolls (env : Env) : List Bool := pollsOf (setup env).trace

/-- The flag value observed at line 120, after the advertising window. -/
def connectedAfterWindow (env : Env) : Bool := (afterCheck env).1

/-! ## Expected shape of a run -/

/-- Program entries of the bootstrap. -/
def bootProg : List Entry :=
  [Entry.act (Action.pinMode TEMP_SENSOR PinMode.INPUT),
   Entry.act (Action.pinMode INDICATOR_LED PinMode.OUTPUT),
   Entry.act (Action.serialBegin 9600),
   Entry.act (Action.bleInit "crud.sh::beverage_notifier"),
   Entry.act Action.createServer,
   Entry.act Action.setCallbacks,
   Entry.act (Action.createService SERVICE_UUID),
   Entry.act (Action.createCharacteristic CHARACTERISTIC_UUID true true),
   Entry.act Action.addDescriptor2902,
   Entry.act Action.getAdvertising,
   Entry.act (Action.setMinPreferred 0),
   Entry.act Action.serviceStart]

/-- Program entries of one advertising attempt: a poll that sees the flag
clear, the indicator write, the advertising start and the one-second wait. -/
def attemptProg : List Entry :=
  [Entry.poll false,
   Entry.act (Action.digitalWrite INDICATOR_LED Level.HIGH),
   Entry.act Action.advertisingStart,
   Entry.act (Action.delay 1000)]

/-- Program entries of `k` consecutive advertising attempts. -/
def attemptsProg : Nat → List Entry
  | 0 => []
  | k + 1 => attemptProg ++ attemptsProg k

/-- The poll that ends the loop early, present when fewer than `n` attempts
were made. -/
def breakProg (n k : Nat) : List Entry := if k < n then [Entry.poll true] else []

/-- Program entries of `n` sampling iterations. -/
def samplesProg : Nat → List Entry
  | 0 => []
  | n + 1 => [Entry.act (Action.analogRead TEMP_SENSOR), Entry.act (Action.delay 10)]
      ++ samplesProg n

/-- Program entries of the connected branch publishing `value`. -/
def publishProg (value : String) : List Entry :=
  [Entry.act (Action.serialPrintln "Prepare getting averages...")]
    ++ samplesProg NUM_READINGS
    ++ [Entry.act (Action.setValue value), Entry.act Action.notify,
        Entry.act (Action.serialPrint value), Entry.act (Action.delay PROCESS_NOTIFICAION_TIME)]

/-- Program entries of the sleep transition. -/
def sleepProg : List Entry :=
  [Entry.act (Action.enableTimerWakeup sleepMicros), Entry.act Action.deepSleepStart]

/-- The unweighted arithmetic mean of the first `NUM_READINGS` converted
readings. -/
def meanTemperature (env : Env) : ℚ :=
  (∑ i in Finset.range NUM_READINGS, toTemperature (toVoltage (env.adc i))) / (NUM_READINGS : ℚ)

/-- Program entries that follow the advertising loop when the flag read of
line 120 returns `c`. -/
def tailProg (env : Env) (c : Bool) : List Entry :=
  [Entry.act (Action.digitalWrite INDICATOR_LED Level.LOW), Entry.check c]
    ++ (if c then publishProg (env.floatToString (meanTemperature env)) else [])
    ++ sleepProg

/-- Program entries of a whole run with `k` advertising attempts. -/
def expectedProg (env : Env) (k : Nat) (c : Bool) : List Entry :=
  bootProg ++ (attemptsProg k ++ breakProg ADVERTISING_TIME k) ++ tailProg env c

/-- Vendor calls of `k` advertising attempts. -/
def attemptsActs : Nat → List Action
  | 0 => []
  | k + 1 => [Action.digitalWrite INDICATOR_LED Level.HIGH, Action.advertisingStart,
      Action.delay 1000] ++ attemptsActs k

/-- Vendor calls of `n` sampling iterations. -/
def samplesActs : Nat → List Action
  | 0 => []
  | n + 1 => [Action.analogRead TEMP_SENSOR, Action.delay 10] ++ samplesActs n

/-- Vendor calls of the bootstrap. -/
def bootActs : List Action := actionsOf bootProg

/-- Vendor calls of the connected branch publishing `value`. -/
def publishActs (value : String) : List Action :=
  [Action.serialPrintln "Prepare getting averages..."]
    ++ samplesActs NUM_READINGS
    ++ [Action.setValue value, Action.notify, Action.serialPrint value,
        Action.delay PROCESS_NOTIFICAION_TIME]

/-- Vendor calls of the sleep transition. -/
def sleepActs : List Action := [Action.enableTimerWakeup sleepMicros, Action.deepSleepStart]

/-- Vendor calls that follow the advertising loop. -/
def tailActs (env : Env) (c : Bool) : List Action :=
  Action.digitalWrite INDICATOR_LED Level.LOW
    :: ((if c then publishActs (env.floatToString (meanTemperature env)) else []) ++ sleepActs)

/-! ## Classifiers and measurements on action traces -/

/-- Recognises a call of `analogRead`. -/
def Action.isAnalogRead : Action → Bool
  | Action.analogRead _ => true
  | _ => false

/-- Recognises a call of `pCharacteristic->setValue`. -/
def Action.isSetValue : Action → Bool
  | Action.setValue _ => true
  | _ => false

/-- Recognises a call of `pCharacteristic->notify`. -/
def Action.isNotify : Action → Bool
  | Action.notify => true
  | _ => false

/-- Recognises a call of `pAdvertising->start`. -/
def Action.isAdvertisingStart : Action → Bool
  | Action.advertisingStart => true
  | _ => false

/-- Recognises a call of `esp_sleep_enable_timer_wakeup`. -/
def Action.isTimerWake : Action → Bool
  | Action.enableTimerWakeup _ => true
  | _ => false

/-- Recognises a call of `esp_deep_sleep_start`. -/
def Action.isDeepSleep : Action → Bool
  | Action.deepSleepStart => true
  | _ => false

/-- Recognises a write to the indicator pin. -/
def Action.isIndicatorWrite : Action → Bool
  | Action.digitalWrite pin _ => pin == INDICATOR_LED
  | _ => false

/-- Total time, in milliseconds, spent in `delay` calls. -/
def delayTotal : List Action → Nat
  | [] => 0
  | Action.delay ms :: rest => ms + delayTotal rest
  | _ :: rest => delayTotal rest

/-- Level of the indicator pin after an entry, given the level before it. -/
def ledStep (lvl : Option Level) : Entry → Option Level
  | Entry.act (Action.digitalWrite pin l) => if pin = INDICATOR_LED then some l else lvl
  | _ => lvl

/-- Level of the indicator pin after a run of entries: the last level written
to it, or nothing when it was never written. -/
def ledLevel (t : List Entry) : Option Level := t.foldl ledStep none

/-- Vendor calls of the conditional at line 120 when the flag read gives `c`. -/
def branchActs (env : Env) (c : Bool) : List Action :=
  if c then publishActs (env.floatToString (meanTemperature env)) else []

/-- Number of advertising attempts of a run. -/
def attempts (env : Env) : Nat := (setupActions env).countP Action.isAdvertisingStart

/-- Scanning from indicator level `lvl`: every advertising start and every
one-second wait met before the flag check of line 120 finds the indicator
high. -/
def litWhileAdvertising (lvl : Option Level) : List Entry → Prop
  | [] => True
  | Entry.check _ :: _ => True
  | e :: t =>
    (∀ a, e = Entry.act a → (a = Action.advertisingStart ∨ a = Action.delay 1000) →
        lvl = some Level.HIGH)
      ∧ litWhileAdvertising (ledStep lvl e) t

/-- The value of `average` computed by the connected branch of the run. -/
def computedAverage (env : Env) : ℚ := (sampleAverage env (afterCheck env).2).1

/-- The flag is explained by the trace: it can only be set when the dispatch
of a peer attach has been recorded. -/
def FlagExplained (s : State) : Prop :=
  s.deviceConnected = true → Entry.peer PeerEvent.attach ∈ s.trace

/-- A schedule without any peer attach. -/
def Quiet (env : Env) : Prop := ∀ c, PeerEvent.attach ∉ env.sched c

/-! ## Sample environments

Step numbers of a run: the bootstrap takes steps 0 to 11; iteration `j` of the
advertising loop polls the flag at step `12 + 4 * j`, writes the indicator at
the next step, starts advertising at the next and calls `delay(1000)` at step
`15 + 4 * j`.  Events that arrive during that wait are dispatched before step
`16 + 4 * j`, the next poll. -/

/-- Environment with the given schedule, constant raw readings of 310 and a
fixed text for the formatted value. -/
def scheduleEnv (sched : Nat → List PeerEvent) : Env :=
  { sched := sched, adc := fun _ => 310, floatToString := fun _ => "24.98" }

/-- No peer ever shows up. -/
def quietEnv : Env := scheduleEnv (fun _ => [])

/-- A peer attaches during the first one-second wait and stays. -/
def connectEnv : Env := scheduleEnv (fun c => if c = 16 then [PeerEvent.attach] else [])

/-- A peer attaches during the first wait, is seen by the second poll, and
detaches before the flag is read again at line 120. -/
def dropEnv : Env :=
  scheduleEnv (fun c =>
    if c = 16 then [PeerEvent.attach] else if c = 17 then [PeerEvent.detach] else [])

/-- A peer attaches and detaches again within the first one-second wait. -/
def blipEnv : Env :=
  scheduleEnv (fun c => if c = 16 then [PeerEvent.attach, PeerEvent.detach] else [])

/-- No peer shows up during the 60 attempts; one attaches after the loop has
ended and the indicator has been written low (step 252), just before the flag
is read at line 120 (step 253). -/
def lateEnv : Env := scheduleEnv (fun c => if c = 253 then [PeerEvent.attach] else [])

/-! ## Step lemmas -/

theorem progOf_append (a b : List Entry) : progOf (a ++ b) = progOf a ++ progOf b := by
  simp [progOf]

theorem dispatch_prog (s : State) (e : PeerEvent) :
    progOf (dispatch s e).trace = progOf s.trace := by
  cases e <;> simp [dispatch, onConnect, onDisconnect, progOf, Entry.isProgram]

theorem dispatch_reads (s : State) (e : PeerEvent) : (dispatch s e).reads = s.reads := by
  cases e <;> rfl

theorem foldl_dispatch_prog (es : List PeerEvent) (s : State) :
    progOf (es.foldl dispatch s).trace = progOf s.trace := by
  induction es generalizing s with
  | nil => rfl
  | cons e es ih => simp only [List.foldl_cons]; rw [ih, dispatch_prog]

theorem foldl_dispatch_reads (es : List PeerEvent) (s : State) :
    (es.foldl dispatch s).reads = s.reads := by
  induction es generalizing s with
  | nil => rfl
  | cons e es ih => simp only [List.foldl_cons]; rw [ih, dispatch_reads]

theorem deliver_prog (env : Env) (s : State) :
    progOf (deliver env s).trace = progOf s.trace := by
  unfold deliver
  by_cases h : s.callbacksSet = true
  · simp [h, foldl_dispatch_prog]
  · simp [h]

theorem deliver_reads (env : Env) (s : State) : (deliver env s).reads = s.reads := by
  unfold deliver
  by_cases h : s.callbacksSet = true
  · simp [h, foldl_dispatch_reads]
  · simp [h]

theorem emit_prog (env : Env) (a : Action) (s : State) :
    progOf (emit env a s).trace = progOf s.trace ++ [Entry.act a] := by
  simp only [emit, progOf_append, deliver_prog]
  rfl

theorem emit_reads (env : Env) (a : Action) (s : State) : (emit env a s).reads = s.reads := by
  simp [emit, deliver_reads]

theorem pollFlag_prog (env : Env) (s : State) :
    progOf (pollFlag env s).2.trace = progOf s.trace ++ [Entry.poll (pollFlag env s).1] := by
  simp only [pollFlag, progOf_append, deliver_prog]
  rfl

theorem pollFlag_reads (env : Env) (s : State) : (pollFlag env s).2.reads = s.reads := by
  simp [pollFlag, deliver_reads]

theorem checkFlag_prog (env : Env) (s : State) :
    progOf (checkFlag env s).2.trace = progOf s.trace ++ [Entry.check (checkFlag env s).1] := by
  simp only [checkFlag, progOf_append, deliver_prog]
  rfl

theorem checkFlag_reads (env : Env) (s : State) : (checkFlag env s).2.reads = s.reads := by
  simp [checkFlag, deliver_reads]

theorem setCallbacks_prog (env : Env) (s : State) :
    progOf (setCallbacks env s).trace = progOf s.trace ++ [Entry.act Action.setCallbacks] := by
  simp only [setCallbacks, emit_prog]

theorem setCallbacks_reads (env : Env) (s : State) : (setCallbacks env s).reads = s.reads := by
  simp [setCallbacks, emit_reads]

theorem bootstrap_prog (env : Env) (s : State) :
    progOf (bootstrap env s).trace = progOf s.trace ++ bootProg := by
  simp only [bootstrap, emit_prog, setCallbacks_prog, bootProg, List.append_assoc,
    List.singleton_append, List.cons_append, List.nil_append]

theorem bootstrap_reads (env : Env) (s : State) : (bootstrap env s).reads = s.reads := by
  simp only [bootstrap, emit_reads, setCallbacks_reads]

theorem advertise_prog (env : Env) (n : Nat) (s : State) :
    ∃ k, k ≤ n ∧
      progOf (advertise env n s).trace = progOf s.trace ++ (attemptsProg k ++ breakProg n k) ∧
      (advertise env n s).reads = s.reads := by
  induction n generalizing s with
  | zero => exact ⟨0, le_refl _, by simp [advertise, attemptsProg, breakProg], rfl⟩
  | succ n ih =>
    by_cases h : (pollFlag env s).1 = true
    · refine ⟨0, Nat.zero_le _, ?_, ?_⟩
      · simp only [advertise, h, if_true, pollFlag_prog, attemptsProg, breakProg,
          Nat.zero_lt_succ, List.nil_append]
      · simp only [advertise, h, if_true, pollFlag_reads]
    · obtain ⟨k, hk, hp, hr⟩ := ih
        (emit env (Action.delay 1000) (emit env Action.advertisingStart
          (emit env (Action.digitalWrite INDICATOR_LED Level.HIGH) (pollFlag env s).2)))
      have hf : (pollFlag env s).1 = false := by simpa using h
      refine ⟨k + 1, Nat.succ_le_succ hk, ?_, ?_⟩
      · simp only [advertise, hf, Bool.false_eq_true, if_false, hp, emit_prog, pollFlag_prog,
          attemptsProg, attemptProg, breakProg, Nat.succ_lt_succ_iff, List.append_assoc,
          List.singleton_append, List.cons_append, List.nil_append]
      · simp only [advertise, hf, Bool.false_eq_true, if_false, hr, emit_reads, pollFlag_reads]

theorem analogRead_prog (env : Env) (pin : Nat) (s : State) :
    progOf (analogRead env pin s).2.trace = progOf s.trace ++ [Entry.act (Action.analogRead pin)] := by
  simp only [analogRead, emit_prog]

theorem analogRead_reads (env : Env) (pin : Nat) (s : State) :
    (analogRead env pin s).2.reads = s.reads + 1 := by
  simp only [analogRead, emit_reads]

theorem analogRead_value (env : Env) (pin : Nat) (s : State) :
    (analogRead env pin s).1 = env.adc s.reads := by
  simp only [analogRead, emit_reads]

theorem sampleLoop_spec (env : Env) (n : Nat) (total : ℚ) (s : State) :
    (sampleLoop env n total s).1
        = total + ∑ i in Finset.range n, toTemperature (toVoltage (env.adc (s.reads + i))) ∧
      progOf (sampleLoop env n total s).2.trace = progOf s.trace ++ samplesProg n ∧
      (sampleLoop env n total s).2.reads = s.reads + n := by
  induction n generalizing total s with
  | zero => simp [sampleLoop, samplesProg]
  | succ n ih =>
    obtain ⟨h1, h2, h3⟩ := ih (total + toTemperature (toVoltage (analogRead env TEMP_SENSOR s).1))
      (emit env (Action.delay 10) (analogRead env TEMP_SENSOR s).2)
    refine ⟨?_, ?_, ?_⟩
    · have hs : ∀ i, (emit env (Action.delay 10) (analogRead env TEMP_SENSOR s).2).reads + i
          = s.reads + (i + 1) := by
        intro i
        rw [emit_reads, analogRead_reads]
        omega
      show (sampleLoop env n (total + toTemperature (toVoltage (analogRead env TEMP_SENSOR s).1))
        (emit env (Action.delay 10) (analogRead env TEMP_SENSOR s).2)).1 = _
      rw [h1, Finset.sum_range_succ', analogRead_value]
      simp only [hs, Nat.add_zero]
      ring
    · simp only [sampleLoop, h2, emit_prog, analogRead_prog, samplesProg, List.append_assoc,
        List.singleton_append, List.cons_append, List.nil_append]
    · simp only [sampleLoop, h3, emit_reads, analogRead_reads]
      omega

/-! ## Shape of a whole run -/

theorem afterAdvertising_prog (env : Env) :
    ∃ k, k ≤ ADVERTISING_TIME ∧
      progOf (afterAdvertising env).trace
        = bootProg ++ (attemptsProg k ++ breakProg ADVERTISING_TIME k) ∧
      (afterAdvertising env).reads = 0 := by
  obtain ⟨k, hk, hp, hr⟩ := advertise_prog env ADVERTISING_TIME (bootstrap env initial)
  refine ⟨k, hk, ?_, ?_⟩
  · rw [afterAdvertising, hp, bootstrap_prog]
    rfl
  · rw [afterAdvertising, hr, bootstrap_reads]
    rfl

theorem afterCheck_reads (env : Env) : (afterCheck env).2.reads = 0 := by
  obtain ⟨_, _, _, hr⟩ := afterAdvertising_prog env
  rw [afterCheck, checkFlag_reads, emit_reads, hr]

theorem afterCheck_prog (env : Env) :
    ∃ k, k ≤ ADVERTISING_TIME ∧
      progOf (afterCheck env).2.trace
        = bootProg ++ (attemptsProg k ++ breakProg ADVERTISING_TIME k)
          ++ [Entry.act (Action.digitalWrite INDICATOR_LED Level.LOW),
              Entry.check (connectedAfterWindow env)] := by
  obtain ⟨k, hk, hp, _⟩ := afterAdvertising_prog env
  refine ⟨k, hk, ?_⟩
  rw [afterCheck, checkFlag_prog, emit_prog, hp]
  simp only [connectedAfterWindow, afterCheck, List.append_assoc, List.singleton_append]

theorem sampleAverage_value (env : Env) (s : State) (h : s.reads = 0) :
    (sampleAverage env s).1 = meanTemperature env := by
  have h1 := (sampleLoop_spec env NUM_READINGS 0
    (emit env (Action.serialPrintln "Prepare getting averages...") s)).1
  simp only [sampleAverage, h1, emit_reads, h, Nat.zero_add, zero_add, meanTemperature]

theorem sampleAverage_prog (env : Env) (s : State) :
    progOf (sampleAverage env s).2.trace
      = progOf s.trace ++ ([Entry.act (Action.serialPrintln "Prepare getting averages...")]
          ++ samplesProg NUM_READINGS) := by
  have h2 := (sampleLoop_spec env NUM_READINGS 0
    (emit env (Action.serialPrintln "Prepare getting averages...") s)).2.1
  simp only [sampleAverage, h2, emit_prog, List.append_assoc]

theorem publish_prog (env : Env) (average : ℚ) (s : State) :
    progOf (publish env average s).trace
      = progOf s.trace ++ [Entry.act (Action.setValue (env.floatToString average)),
          Entry.act Action.notify, Entry.act (Action.serialPrint (env.floatToString average)),
          Entry.act (Action.delay PROCESS_NOTIFICAION_TIME)] := by
  simp only [publish, emit_prog, List.append_assoc, List.singleton_append, List.cons_append,
    List.nil_append]

theorem connectedBranch_prog (env : Env) (s : State) (h : s.reads = 0) :
    progOf (connectedBranch env s).trace
      = progOf s.trace ++ publishProg (env.floatToString (meanTemperature env)) := by
  simp only [connectedBranch, publish_prog, sampleAverage_prog, sampleAverage_value env s h,
    publishProg, List.append_assoc]

theorem goToSleep_prog (env : Env) (s : State) :
    progOf (goToSleep env s).trace = progOf s.trace ++ sleepProg := by
  simp only [goToSleep, emit_prog, sleepProg, List.append_assoc, List.singleton_append]

/-- Every run of `setup()` has, callbacks aside, the expected shape: the
bootstrap, some `k ≤ ADVERTISING_TIME` attempts, the poll that sees the
connection when `k < ADVERTISING_TIME`, the indicator write, the flag check,
the connected branch when the check succeeds, and the sleep transition. -/
theorem setup_prog (env : Env) :
    ∃ k, k ≤ ADVERTISING_TIME ∧
      progOf (setup env).trace = expectedProg env k (connectedAfterWindow env) := by
  obtain ⟨k, hk, hp⟩ := afterCheck_prog env
  refine ⟨k, hk, ?_⟩
  by_cases hc : (afterCheck env).1 = true
  · have hc2 : connectedAfterWindow env = true := hc
    simp only [setup, hc, if_true, goToSleep_prog,
      connectedBranch_prog env _ (afterCheck_reads env), hp, expectedProg, tailProg, hc2,
      List.append_assoc]
  · have hf : (afterCheck env).1 = false := by simpa using hc
    have hc2 : connectedAfterWindow env = false := hf
    simp only [setup, hf, Bool.false_eq_true, if_false, goToSleep_prog, hp, expectedProg,
      tailProg, hc2, List.append_assoc, List.nil_append]

/-! ## Projections of the expected shape -/

theorem actionsOf_append (a b : List Entry) : actionsOf (a ++ b) = actionsOf a ++ actionsOf b := by
  simp [actionsOf]

theorem pollsOf_append (a b : List Entry) : pollsOf (a ++ b) = pollsOf a ++ pollsOf b := by
  simp [pollsOf]

theorem actionsOf_progOf (t : List Entry) : actionsOf (progOf t) = actionsOf t := by
  induction t with
  | nil => rfl
  | cons e t ih =>
    cases e <;> simp_all [actionsOf, progOf, Entry.isProgram, Entry.action?]

theorem pollsOf_progOf (t : List Entry) : pollsOf (progOf t) = pollsOf t := by
  induction t with
  | nil => rfl
  | cons e t ih =>
    cases e <;> simp_all [pollsOf, progOf, Entry.isProgram, Entry.poll?]

theorem actionsOf_attemptsProg (k : Nat) : actionsOf (attemptsProg k) = attemptsActs k := by
  induction k with
  | zero => rfl
  | succ k ih =>
    rw [attemptsProg, actionsOf_append, ih]
    rfl

theorem pollsOf_attemptsProg (k : Nat) : pollsOf (attemptsProg k) = List.replicate k false := by
  induction k with
  | zero => rfl
  | succ k ih =>
    rw [attemptsProg, pollsOf_append, ih]
    rfl

theorem actionsOf_breakProg (n k : Nat) : actionsOf (breakProg n k) = [] := by
  unfold breakProg
  split <;> rfl

theorem actionsOf_samplesProg (n : Nat) : actionsOf (samplesProg n) = samplesActs n := by
  induction n with
  | zero => rfl
  | succ n ih =>
    rw [samplesProg, actionsOf_append, ih]
    rfl

theorem pollsOf_samplesProg (n : Nat) : pollsOf (samplesProg n) = [] := by
  induction n with
  | zero => rfl
  | succ n ih =>
    rw [samplesProg, pollsOf_append, ih]
    rfl

theorem actionsOf_publishProg (value : String) :
    actionsOf (publishProg value) = publishActs value := by
  simp only [publishProg, actionsOf_append, actionsOf_samplesProg, publishActs]
  rfl

theorem actionsOf_tailProg (env : Env) (c : Bool) :
    actionsOf (tailProg env c) = tailActs env c := by
  cases c
  · rfl
  · simp only [tailProg, if_true, actionsOf_append, actionsOf_publishProg, tailActs]
    rfl

theorem pollsOf_tailProg (env : Env) (c : Bool) : pollsOf (tailProg env c) = [] := by
  cases c
  · rfl
  · simp only [tailProg, if_true, pollsOf_append, publishProg, pollsOf_samplesProg]
    rfl

/-- The action trace of every run: bootstrap, `k` attempts, then the tail. -/
theorem setupActions_shape (env : Env) :
    ∃ k, k ≤ ADVERTISING_TIME ∧
      progOf (setup env).trace = expectedProg env k (connectedAfterWindow env) ∧
      setupActions env = bootActs ++ attemptsActs k ++ tailActs env (connectedAfterWindow env) ∧
      loopPolls env = List.replicate k false ++ (if k < ADVERTISING_TIME then [true] else []) := by
  obtain ⟨k, hk, hp⟩ := setup_prog env
  refine ⟨k, hk, hp, ?_, ?_⟩
  · rw [setupActions, ← actionsOf_progOf, hp]
    simp only [expectedProg, actionsOf_append, actionsOf_attemptsProg, actionsOf_breakProg,
      actionsOf_tailProg, List.append_nil, bootActs]
  · rw [loopPolls, ← pollsOf_progOf, hp]
    simp only [expectedProg, pollsOf_append, pollsOf_attemptsProg, pollsOf_tailProg,
      List.append_nil]
    have hb : pollsOf bootProg = [] := rfl
    rw [hb, List.nil_append]
    congr 1
    unfold breakProg
    split <;> rfl

/-! ## Counting lemmas -/

theorem countP_attemptsActs (p : Action → Bool) (k : Nat) :
    (attemptsActs k).countP p
      = k * [Action.digitalWrite INDICATOR_LED Level.HIGH, Action.advertisingStart,
          Action.delay 1000].countP p := by
  induction k with
  | zero => simp [attemptsActs]
  | succ k ih =>
    rw [attemptsActs, List.countP_append, ih]
    ring

theorem countP_samplesActs (p : Action → Bool) (n : Nat) :
    (samplesActs n).countP p
      = n * [Action.analogRead TEMP_SENSOR, Action.delay 10].countP p := by
  induction n with
  | zero => simp [samplesActs]
  | succ n ih =>
    rw [samplesActs, List.countP_append, ih]
    ring

theorem delayTotal_append (a b : List Action) :
    delayTotal (a ++ b) = delayTotal a + delayTotal b := by
  induction a with
  | nil => simp [delayTotal]
  | cons x a ih =>
    cases x <;> simp [delayTotal, ih, Nat.add_assoc]

theorem delayTotal_attemptsActs (k : Nat) : delayTotal (attemptsActs k) = 1000 * k := by
  induction k with
  | zero => rfl
  | succ k ih =>
    rw [attemptsActs, delayTotal_append, ih]
    simp only [delayTotal]
    omega

theorem countP_shape (p : Action → Bool) (k : Nat) (tail : List Action) (b a t : Nat)
    (hb : bootActs.countP p = b)
    (ha : [Action.digitalWrite INDICATOR_LED Level.HIGH, Action.advertisingStart,
            Action.delay 1000].countP p = a)
    (ht : tail.countP p = t) :
    (bootActs ++ attemptsActs k ++ tail).countP p = b + k * a + t := by
  rw [List.countP_append, List.countP_append, countP_attemptsActs, hb, ha, ht]

theorem tailActs_false (env : Env) :
    tailActs env false = Action.digitalWrite INDICATOR_LED Level.LOW :: sleepActs := rfl

theorem tailActs_true (env : Env) :
    tailActs env true = Action.digitalWrite INDICATOR_LED Level.LOW
      :: (publishActs (env.floatToString (meanTemperature env)) ++ sleepActs) := rfl

/-! ## The flag without a peer attach -/

theorem foldl_dispatch_flag (es : List PeerEvent) (h : PeerEvent.attach ∉ es) (s : State)
    (hs : s.deviceConnected = false) : (es.foldl dispatch s).deviceConnected = false := by
  induction es generalizing s with
  | nil => exact hs
  | cons e es ih =>
    simp only [List.mem_cons, not_or] at h
    simp only [List.foldl_cons]
    apply ih h.2
    cases e with
    | attach => exact absurd rfl h.1
    | detach => rfl

theorem deliver_flag (env : Env) (hq : Quiet env) (s : State)
    (hs : s.deviceConnected = false) : (deliver env s).deviceConnected = false := by
  unfold deliver
  by_cases h : s.callbacksSet = true
  · simp [h, foldl_dispatch_flag _ (hq s.clock) s hs]
  · simp [h, hs]

theorem emit_flag (env : Env) (hq : Quiet env) (a : Action) (s : State)
    (hs : s.deviceConnected = false) : (emit env a s).deviceConnected = false := by
  simp [emit, deliver_flag env hq s hs]

theorem pollFlag_flag (env : Env) (hq : Quiet env) (s : State)
    (hs : s.deviceConnected = false) :
    (pollFlag env s).1 = false ∧ (pollFlag env s).2.deviceConnected = false := by
  simp [pollFlag, deliver_flag env hq s hs]

theorem checkFlag_flag (env : Env) (hq : Quiet env) (s : State)
    (hs : s.deviceConnected = false) : (checkFlag env s).1 = false := by
  simp [checkFlag, deliver_flag env hq s hs]

theorem bootstrap_flag (env : Env) (hq : Quiet env) (s : State)
    (hs : s.deviceConnected = false) : (bootstrap env s).deviceConnected = false := by
  have hc : ∀ t : State, t.deviceConnected = false →
      (setCallbacks env t).deviceConnected = false := by
    intro t ht
    simp [setCallbacks, emit_flag env hq _ t ht]
  unfold bootstrap
  refine emit_flag env hq _ _ (emit_flag env hq _ _ (emit_flag env hq _ _ (emit_flag env hq _ _
    (emit_flag env hq _ _ (emit_flag env hq _ _ (hc _ (emit_flag env hq _ _
    (emit_flag env hq _ _ (emit_flag env hq _ _ (emit_flag env hq _ _
    (emit_flag env hq _ _ hs)))))))))))

theorem advertise_flag (env : Env) (hq : Quiet env) (n : Nat) (s : State)
    (hs : s.deviceConnected = false) : (advertise env n s).deviceConnected = false := by
  induction n generalizing s with
  | zero => exact hs
  | succ n ih =>
    obtain ⟨h1, h2⟩ := pollFlag_flag env hq s hs
    simp only [advertise, h1, Bool.false_eq_true, if_false]
    exact ih _ (emit_flag env hq _ _ (emit_flag env hq _ _ (emit_flag env hq _ _ h2)))

theorem connectedAfterWindow_of_quiet (env : Env) (hq : Quiet env) :
    connectedAfterWindow env = false := by
  unfold connectedAfterWindow afterCheck afterAdvertising
  exact checkFlag_flag env hq _ (emit_flag env hq _ _
    (advertise_flag env hq _ _ (bootstrap_flag env hq _ rfl)))

/-! ## The flag is set only by a recorded attach -/

theorem dispatch_explained (s : State) (e : PeerEvent) (_h : FlagExplained s) :
    FlagExplained (dispatch s e) := by
  cases e with
  | attach =>
    intro _
    simp [dispatch, onConnect]
  | detach =>
    intro hf
    simp [dispatch, onDisconnect] at hf

theorem foldl_dispatch_explained (es : List PeerEvent) (s : State) (h : FlagExplained s) :
    FlagExplained (es.foldl dispatch s) := by
  induction es generalizing s with
  | nil => exact h
  | cons e es ih =>
    simp only [List.foldl_cons]
    exact ih _ (dispatch_explained s e h)

theorem deliver_explained (env : Env) (s : State) (h : FlagExplained s) :
    FlagExplained (deliver env s) := by
  unfold deliver
  by_cases hc : s.callbacksSet = true
  · simpa [hc, FlagExplained] using foldl_dispatch_explained (env.sched s.clock) s h
  · simpa [hc, FlagExplained] using h

theorem emit_explained (env : Env) (a : Action) (s : State) (h : FlagExplained s) :
    FlagExplained (emit env a s) := by
  intro hf
  have h1 := deliver_explained env s h hf
  simp only [emit, List.mem_append]
  exact Or.inl h1

theorem pollFlag_explained (env : Env) (s : State) (h : FlagExplained s) :
    FlagExplained (pollFlag env s).2 := by
  intro hf
  have h1 := deliver_explained env s h hf
  simp only [pollFlag, List.mem_append]
  exact Or.inl h1

theorem checkFlag_explained (env : Env) (s : State) (h : FlagExplained s) :
    FlagExplained (checkFlag env s).2 := by
  intro hf
  have h1 := deliver_explained env s h hf
  simp only [checkFlag, List.mem_append]
  exact Or.inl h1

theorem checkFlag_value (env : Env) (s : State) :
    (checkFlag env s).1 = (checkFlag env s).2.deviceConnected := rfl

theorem setCallbacks_explained (env : Env) (s : State) (h : FlagExplained s) :
    FlagExplained (setCallbacks env s) := by
  intro hf
  exact emit_explained env Action.setCallbacks s h hf

theorem bootstrap_explained (env : Env) (s : State) (h : FlagExplained s) :
    FlagExplained (bootstrap env s) := by
  unfold bootstrap
  exact emit_explained env _ _ (emit_explained env _ _ (emit_explained env _ _
    (emit_explained env _ _ (emit_explained env _ _ (emit_explained env _ _
    (setCallbacks_explained env _ (emit_explained env _ _ (emit_explained env _ _
    (emit_explained env _ _ (emit_explained env _ _ (emit_explained env _ _ h)))))))))))

theorem advertise_explained (env : Env) (n : Nat) (s : State) (h : FlagExplained s) :
    FlagExplained (advertise env n s) := by
  induction n generalizing s with
  | zero => exact h
  | succ n ih =>
    have hp := pollFlag_explained env s h
    by_cases hb : (pollFlag env s).1 = true
    · simpa only [advertise, hb, if_true] using hp
    · have hf : (pollFlag env s).1 = false := by simpa using hb
      simp only [advertise, hf, Bool.false_eq_true, if_false]
      exact ih _ (emit_explained env _ _ (emit_explained env _ _ (emit_explained env _ _ hp)))

/-- If no peer attach has been dispatched by the time the flag is read at line
120, that read returns false. -/
theorem connectedAfterWindow_of_no_attach (env : Env)
    (h : Entry.peer PeerEvent.attach ∉ (afterCheck env).2.trace) :
    connectedAfterWindow env = false := by
  have hinit : FlagExplained initial := by
    intro hf
    cases hf
  have hex : FlagExplained (afterCheck env).2 := by
    unfold afterCheck afterAdvertising
    exact checkFlag_explained env _ (emit_explained env _ _
      (advertise_explained env _ _ (bootstrap_explained env _ hinit)))
  by_contra hc
  have hc2 : connectedAfterWindow env = true := by simpa using hc
  exact h (hex hc2)

/-- With the flag false at line 120 the run has no `analogRead`, `setValue` or
`notify`; conversely any such call means the flag was true there. -/
theorem sampling_iff_connected (env : Env) :
    (connectedAfterWindow env = false →
      (setupActions env).countP Action.isAnalogRead = 0 ∧
      (setupActions env).countP Action.isSetValue = 0 ∧
      (setupActions env).countP Action.isNotify = 0) ∧
    ((∃ a ∈ setupActions env, a.isAnalogRead ∨ a.isSetValue ∨ a.isNotify) →
      connectedAfterWindow env = true) := by
  obtain ⟨k, _, _, hact, _⟩ := setupActions_shape env
  have hzero : connectedAfterWindow env = false →
      (setupActions env).countP Action.isAnalogRead = 0 ∧
      (setupActions env).countP Action.isSetValue = 0 ∧
      (setupActions env).countP Action.isNotify = 0 := by
    intro hc
    rw [hact, hc, tailActs_false]
    refine ⟨?_, ?_, ?_⟩ <;>
      rw [countP_shape _ k _ 0 0 0 (by decide) (by decide) (by decide)] <;> simp
  refine ⟨hzero, ?_⟩
  rintro ⟨a, ha, hp⟩
  by_contra hc
  have hc2 : connectedAfterWindow env = false := by simpa using hc
  obtain ⟨h1, h2, h3⟩ := hzero hc2
  rw [List.countP_eq_zero] at h1 h2 h3
  rcases hp with hp | hp | hp
  · exact h1 a ha hp
  · exact h2 a ha hp
  · exact h3 a ha hp

/-! ## Shape in terms of the number of attempts -/

theorem tailActs_eq (env : Env) (c : Bool) :
    tailActs env c
      = Action.digitalWrite INDICATOR_LED Level.LOW :: (branchActs env c ++ sleepActs) := by
  cases c <;> rfl

theorem countP_publishActs (p : Action → Bool) (v : String) (x y z : Nat)
    (hx : [Action.serialPrintln "Prepare getting averages..."].countP p = x)
    (hy : [Action.analogRead TEMP_SENSOR, Action.delay 10].countP p = y)
    (hz : [Action.setValue v, Action.notify, Action.serialPrint v,
            Action.delay PROCESS_NOTIFICAION_TIME].countP p = z) :
    (publishActs v).countP p = x + NUM_READINGS * y + z := by
  rw [publishActs, List.countP_append, List.countP_append, countP_samplesActs, hx, hy, hz]

theorem countP_branchActs_start (env : Env) (c : Bool) :
    (branchActs env c).countP Action.isAdvertisingStart = 0 := by
  cases c
  · rfl
  · exact countP_publishActs _ _ 0 0 0 rfl rfl rfl

theorem countP_branchActs_timer (env : Env) (c : Bool) :
    (branchActs env c).countP Action.isTimerWake = 0 := by
  cases c
  · rfl
  · exact countP_publishActs _ _ 0 0 0 rfl rfl rfl

theorem countP_branchActs_sleep (env : Env) (c : Bool) :
    (branchActs env c).countP Action.isDeepSleep = 0 := by
  cases c
  · rfl
  · exact countP_publishActs _ _ 0 0 0 rfl rfl rfl

theorem countP_tailActs_start (env : Env) (c : Bool) :
    (tailActs env c).countP Action.isAdvertisingStart = 0 := by
  rw [tailActs_eq, List.countP_cons, List.countP_append, countP_branchActs_start]
  rfl

theorem attempts_eq (env : Env) (k : Nat)
    (h : setupActions env = bootActs ++ attemptsActs k ++ tailActs env (connectedAfterWindow env)) :
    attempts env = k := by
  rw [attempts, h, countP_shape _ k _ 0 1 0 (by decide) (by decide) (countP_tailActs_start _ _)]
  simp

/-- The shape of a run, with the number of attempts read off the action trace. -/
theorem setup_shape (env : Env) :
    attempts env ≤ ADVERTISING_TIME ∧
      progOf (setup env).trace = expectedProg env (attempts env) (connectedAfterWindow env) ∧
      setupActions env
        = bootActs ++ attemptsActs (attempts env) ++ tailActs env (connectedAfterWindow env) ∧
      loopPolls env = List.replicate (attempts env) false
        ++ (if attempts env < ADVERTISING_TIME then [true] else []) := by
  obtain ⟨k, hk, hp, ha, hl⟩ := setupActions_shape env
  rw [attempts_eq env k ha]
  exact ⟨hk, hp, ha, hl⟩

theorem attempts_of_polls (env : Env) (k : Nat)
    (h : loopPolls env = List.replicate k false ++ [true]) : attempts env = k := by
  obtain ⟨_, _, _, hl⟩ := setup_shape env
  rw [hl] at h
  have h2 := congrArg (List.count false) h
  by_cases hlt : attempts env < ADVERTISING_TIME
  · simpa [hlt, List.count_replicate] using h2
  · simpa [hlt, List.count_replicate] using h2

theorem computedAverage_eq (env : Env) : computedAverage env = meanTemperature env :=
  sampleAverage_value env _ (afterCheck_reads env)

/-- The end of a run whose flag check succeeds: the publish sequence followed
by the sleep transition, with nothing of the kind before. -/
theorem publish_suffix (env : Env) (hc : connectedAfterWindow env = true) :
    ∃ pre, setupActions env
        = pre ++ [Action.setValue (env.floatToString (computedAverage env)), Action.notify,
            Action.serialPrint (env.floatToString (computedAverage env)),
            Action.delay PROCESS_NOTIFICAION_TIME,
            Action.enableTimerWakeup sleepMicros, Action.deepSleepStart] ∧
      pre.countP Action.isSetValue = 0 ∧ pre.countP Action.isNotify = 0 ∧
      pre.countP Action.isTimerWake = 0 ∧ pre.countP Action.isDeepSleep = 0 := by
  obtain ⟨_, _, ha, _⟩ := setup_shape env
  refine ⟨bootActs ++ attemptsActs (attempts env)
    ++ ([Action.digitalWrite INDICATOR_LED Level.LOW,
          Action.serialPrintln "Prepare getting averages..."] ++ samplesActs NUM_READINGS),
    ?_, ?_, ?_, ?_, ?_⟩
  · rw [ha, hc, tailActs_true, computedAverage_eq]
    simp [publishActs, sleepActs]
  all_goals
    rw [countP_shape _ _ _ 0 0 0 (by decide) (by decide)
      (by rw [List.countP_append, countP_samplesActs]; rfl)]
    simp

/-! ## Claims -/

set_option maxRecDepth 100000 in
/-- C1, as stated, fails in its particular case: in this run no peer attaches
during the advertising window (all 60 polls read false and no attach is
recorded up to the end of the loop), a peer attaches just before the flag is
read at line 120, and the run samples ten times and publishes. -/
theorem C1_counterexample :
    loopPolls lateEnv = List.replicate ADVERTISING_TIME false ∧
    Entry.peer PeerEvent.attach ∉ (afterAdvertising lateEnv).trace ∧
    connectedAfterWindow lateEnv = true ∧
    (setupActions lateEnv).countP Action.isAnalogRead = 10 ∧
    (setupActions lateEnv).countP Action.isSetValue = 1 ∧
    (setupActions lateEnv).countP Action.isNotify = 1 := by
  decide

/-- C1, amended: sampling and publishing happen only if the connection flag is
true when it is read after the advertising window.  When that read returns
false the run contains no `analogRead`, no `setValue` and no `notify`; the read
returns false in particular when no peer attach has been dispatched at any
time before it, hence also when the schedule holds no attach at all. -/
theorem C1_no_sampling_unless_connected (env : Env) :
    (connectedAfterWindow env = false →
      (setupActions env).countP Action.isAnalogRead = 0 ∧
      (setupActions env).countP Action.isSetValue = 0 ∧
      (setupActions env).countP Action.isNotify = 0) ∧
    ((∃ a ∈ setupActions env, a.isAnalogRead ∨ a.isSetValue ∨ a.isNotify) →
      connectedAfterWindow env = true) ∧
    (Entry.peer PeerEvent.attach ∉ (afterCheck env).2.trace →
      connectedAfterWindow env = false) ∧
    (Quiet env → connectedAfterWindow env = false) :=
  ⟨(sampling_iff_connected env).1, (sampling_iff_connected env).2,
    connectedAfterWindow_of_no_attach env, connectedAfterWindow_of_quiet env⟩

set_option maxRecDepth 100000 in
/-- Witness for C1: with no peer at all, no attach is dispatched before the
flag is read, the read is false and nothing is sampled or published. -/
theorem C1_no_sampling_unless_connected_witness :
    Entry.peer PeerEvent.attach ∉ (afterCheck quietEnv).2.trace ∧
    Quiet quietEnv ∧
    connectedAfterWindow quietEnv = false ∧
    (setupActions quietEnv).countP Action.isAnalogRead = 0 ∧
    (setupActions quietEnv).countP Action.isSetValue = 0 ∧
    (setupActions quietEnv).countP Action.isNotify = 0 :=
  have hq : Quiet quietEnv := fun _ h => by cases h
  have hn : Entry.peer PeerEvent.attach ∉ (afterCheck quietEnv).2.trace := by decide
  ⟨hn, hq, (C1_no_sampling_unless_connected quietEnv).2.2.1 hn,
    (C1_no_sampling_unless_connected quietEnv).1
      ((C1_no_sampling_unless_connected quietEnv).2.2.1 hn)⟩

/-- C2: every run ends with the timer call followed by the deep-sleep call,
each occurs exactly once, and the timer argument `SLEEP_DURATION * 1000000`
is 15000000 microseconds, computed without overflow of 32-bit signed `int`. -/
theorem C2_one_sleep_transition (env : Env) :
    (∃ pre, setupActions env
        = pre ++ [Action.enableTimerWakeup 15000000, Action.deepSleepStart] ∧
      pre.countP Action.isTimerWake = 0 ∧ pre.countP Action.isDeepSleep = 0) ∧
    (setupActions env).countP Action.isTimerWake = 1 ∧
    (setupActions env).countP Action.isDeepSleep = 1 ∧
    SLEEP_DURATION = 15 ∧
    sleepMicros = 15 * 1000000 ∧
    wrapInt32 (SLEEP_DURATION * 1000000) = SLEEP_DURATION * 1000000 ∧
    SLEEP_DURATION * 1000000 < 2 ^ 31 := by
  obtain ⟨_, _, ha, _⟩ := setup_shape env
  have hm : sleepMicros = 15000000 := by decide
  have hpre : setupActions env
      = (bootActs ++ attemptsActs (attempts env)
          ++ (Action.digitalWrite INDICATOR_LED Level.LOW
              :: branchActs env (connectedAfterWindow env)))
        ++ [Action.enableTimerWakeup 15000000, Action.deepSleepStart] := by
    rw [ha, tailActs_eq, sleepActs, hm]
    simp
  have ht : (bootActs ++ attemptsActs (attempts env)
      ++ (Action.digitalWrite INDICATOR_LED Level.LOW
          :: branchActs env (connectedAfterWindow env))).countP Action.isTimerWake = 0 := by
    rw [countP_shape _ _ _ 0 0 0 (by decide) (by decide)
      (by rw [List.countP_cons, countP_branchActs_timer]; rfl)]
    simp
  have hs : (bootActs ++ attemptsActs (attempts env)
      ++ (Action.digitalWrite INDICATOR_LED Level.LOW
          :: branchActs env (connectedAfterWindow env))).countP Action.isDeepSleep = 0 := by
    rw [countP_shape _ _ _ 0 0 0 (by decide) (by decide)
      (by rw [List.countP_cons, countP_branchActs_sleep]; rfl)]
    simp
  refine ⟨⟨_, hpre, ht, hs⟩, ?_, ?_, rfl, by decide, by decide, by decide⟩
  · rw [hpre, List.countP_append, ht]
    rfl
  · rw [hpre, List.countP_append, hs]
    rfl

set_option maxRecDepth 100000 in
/-- C3, as stated, fails: in this run the flag is false at the poll of tick 0
and true at the poll of tick 1, the peer detaches before the flag is read
again at line 120, and nothing is published. -/
theorem C3_counterexample :
    1 < ADVERTISING_TIME ∧
    loopPolls dropEnv = List.replicate 1 false ++ [true] ∧
    connectedAfterWindow dropEnv = false ∧
    (setupActions dropEnv).countP Action.isSetValue = 0 ∧
    (setupActions dropEnv).countP Action.isNotify = 0 := by
  decide

/-- C3, amended: if the flag is false at the polls of ticks `0 .. k-1` and true
at the poll of tick `k` (so that `k < ADVERTISING_TIME`), the loop ends at tick `k` after
exactly `k` attempts (indicator write, `advertising.start`, `delay(1000)`) and
no attempt follows; if moreover the flag is still true when it is read again
at line 120, exactly one `setValue` followed by one `notify` occurs, before
the sleep transition. -/
theorem C3_connected_at_tick (env : Env) (k : Nat)
    (hpolls : loopPolls env = List.replicate k false ++ [true]) :
    k < ADVERTISING_TIME ∧
    setupActions env
      = bootActs ++ attemptsActs k ++ tailActs env (connectedAfterWindow env) ∧
    (setupActions env).countP Action.isAdvertisingStart = k ∧
    (tailActs env (connectedAfterWindow env)).countP Action.isAdvertisingStart = 0 ∧
    (loopPolls env).length = k + 1 ∧
    (connectedAfterWindow env = true →
      (setupActions env).countP Action.isSetValue = 1 ∧
      (setupActions env).countP Action.isNotify = 1 ∧
      ∃ pre, setupActions env
          = pre ++ [Action.setValue (env.floatToString (computedAverage env)), Action.notify,
              Action.serialPrint (env.floatToString (computedAverage env)),
              Action.delay PROCESS_NOTIFICAION_TIME,
              Action.enableTimerWakeup sleepMicros, Action.deepSleepStart] ∧
        pre.countP Action.isSetValue = 0 ∧ pre.countP Action.isNotify = 0 ∧
        pre.countP Action.isDeepSleep = 0) := by
  obtain ⟨_, _, ha, hl⟩ := setup_shape env
  have hn : attempts env = k := attempts_of_polls env k hpolls
  rw [hn] at ha hl
  have hk : k < ADVERTISING_TIME := by
    by_contra hge
    rw [hpolls, if_neg hge] at hl
    have h2 := congrArg List.length hl
    simp at h2
  refine ⟨hk, ha, hn, countP_tailActs_start _ _, by simp [hpolls], ?_⟩
  intro hc
  obtain ⟨pre, hpre, h1, h2, _, h4⟩ := publish_suffix env hc
  refine ⟨?_, ?_, pre, hpre, h1, h2, h4⟩
  · rw [hpre, List.countP_append, h1]
    rfl
  · rw [hpre, List.countP_append, h2]
    rfl

set_option maxRecDepth 100000 in
/-- Witness for C3: a peer attaches during the first wait and stays; the loop
ends at tick 1 and one publish happens. -/
theorem C3_connected_at_tick_witness :
    loopPolls connectEnv = List.replicate 1 false ++ [true] ∧
    connectedAfterWindow connectEnv = true ∧
    (setupActions connectEnv).countP Action.isAdvertisingStart = 1 ∧
    (setupActions connectEnv).countP Action.isSetValue = 1 ∧
    (setupActions connectEnv).countP Action.isNotify = 1 :=
  have h := C3_connected_at_tick connectEnv 1 (by decide)
  ⟨by decide, by decide, h.2.2.1, (h.2.2.2.2.2 (by decide)).1, (h.2.2.2.2.2 (by decide)).2.1⟩

/-- C7: in every run in which a notify is issued, the action trace ends with:
`setValue` of the formatted average, `notify`, the serial echo, a settle delay
of `PROCESS_NOTIFICAION_TIME` = 1000 ms, the timer call, the deep-sleep call;
no notify and no sleep action occurs before that suffix. -/
theorem C7_publish_then_settle_then_sleep (env : Env)
    (h : Action.notify ∈ setupActions env) :
    PROCESS_NOTIFICAION_TIME = 1000 ∧
    ∃ pre, setupActions env
        = pre ++ [Action.setValue (env.floatToString (computedAverage env)), Action.notify,
            Action.serialPrint (env.floatToString (computedAverage env)),
            Action.delay 1000,
            Action.enableTimerWakeup sleepMicros, Action.deepSleepStart] ∧
      pre.countP Action.isSetValue = 0 ∧ pre.countP Action.isNotify = 0 ∧
      pre.countP Action.isTimerWake = 0 ∧ pre.countP Action.isDeepSleep = 0 := by
  have hc : connectedAfterWindow env = true :=
    (sampling_iff_connected env).2 ⟨Action.notify, h, Or.inr (Or.inr rfl)⟩
  exact ⟨rfl, publish_suffix env hc⟩

set_option maxRecDepth 100000 in
/-- Witness for C7: the run with a peer that attaches and stays publishes. -/
theorem C7_publish_then_settle_then_sleep_witness :
    Action.notify ∈ setupActions connectEnv ∧
    ∃ pre, setupActions connectEnv
        = pre ++ [Action.setValue (connectEnv.floatToString (computedAverage connectEnv)),
            Action.notify,
            Action.serialPrint (connectEnv.floatToString (computedAverage connectEnv)),
            Action.delay 1000,
            Action.enableTimerWakeup sleepMicros, Action.deepSleepStart] ∧
      pre.countP Action.isSetValue = 0 ∧ pre.countP Action.isNotify = 0 ∧
      pre.countP Action.isTimerWake = 0 ∧ pre.countP Action.isDeepSleep = 0 :=
  ⟨by decide, (C7_publish_then_settle_then_sleep connectEnv (by decide)).2⟩

/-- C9: the loop makes at most `ADVERTISING_TIME` = 60 attempts, each one an
`advertising.start` followed by one `delay(1000)`, so that the delays up to
the end of the loop add up to 1000 ms per attempt and to at most 60000 ms; it
makes exactly 60 attempts exactly when all 60 polls read false, and otherwise
stops at the first poll that reads true. -/
theorem C9_advertising_window_bounded (env : Env) :
    ADVERTISING_TIME = 60 ∧
    attempts env ≤ ADVERTISING_TIME ∧
    setupActions env
      = bootActs ++ attemptsActs (attempts env) ++ tailActs env (connectedAfterWindow env) ∧
    (tailActs env (connectedAfterWindow env)).countP Action.isAdvertisingStart = 0 ∧
    delayTotal (bootActs ++ attemptsActs (attempts env)) = 1000 * attempts env ∧
    1000 * attempts env ≤ 60000 ∧
    (attempts env = ADVERTISING_TIME ↔
      loopPolls env = List.replicate ADVERTISING_TIME false) ∧
    (attempts env < ADVERTISING_TIME →
      loopPolls env = List.replicate (attempts env) false ++ [true]) := by
  obtain ⟨hle, _, ha, hl⟩ := setup_shape env
  have h60 : ADVERTISING_TIME = 60 := rfl
  refine ⟨h60, hle, ha, countP_tailActs_start _ _, ?_, ?_, ?_, ?_⟩
  · rw [delayTotal_append, delayTotal_attemptsActs]
    have hb : delayTotal bootActs = 0 := by decide
    rw [hb, Nat.zero_add]
  · rw [h60] at hle
    omega
  · constructor
    · intro he
      rw [hl, he]
      simp
    · intro hp
      by_contra hne
      have hlt : attempts env < ADVERTISING_TIME := lt_of_le_of_ne hle hne
      rw [hl, if_pos hlt] at hp
      have hmem : true ∈ List.replicate ADVERTISING_TIME false := by
        rw [← hp]
        simp
      simp [List.mem_replicate] at hmem
  · intro hlt
    rw [hl, if_pos hlt]

/-! ## Numerical claims -/

theorem meanTemperature_eq (env : Env) :
    meanTemperature env
      = ((∑ i in Finset.range NUM_READINGS, env.adc i : ℤ) : ℚ) * (33 / 4095) := by
  simp only [meanTemperature, toTemperature, toVoltage, V_REF, ADC_RESOLUTION, LM35_SCALE]
  rw [← Finset.sum_div, ← Finset.sum_mul]
  push_cast
  simp only [NUM_READINGS]
  ring

theorem countP_tailActs_true_analogRead (env : Env) :
    (tailActs env true).countP Action.isAnalogRead = NUM_READINGS := by
  rw [tailActs_true, List.countP_cons, List.countP_append,
    countP_publishActs Action.isAnalogRead _ 0 1 0 rfl rfl rfl]
  simp [sleepActs, Action.isAnalogRead]

/-- C5: the per-sample conversion is `voltage = r * (V_REF / ADC_RESOLUTION)`
and `temperature = voltage / LM35_SCALE` with the constants 3.3, 4095 and
0.01; for `r = 310` the voltage lies in [0.2498, 0.2499) and the temperature
in [24.98, 24.99).  Each iteration of the sampling loop adds exactly this
temperature to the running total. -/
theorem C5_conversion_law (r : Int) :
    V_REF = 3.3 ∧ (ADC_RESOLUTION : ℚ) = 4095 ∧ LM35_SCALE = 0.01 ∧
    toVoltage r = (r : ℚ) * (3.3 / 4095) ∧
    toTemperature (toVoltage r) = (r : ℚ) * (3.3 / 4095) / 0.01 ∧
    (0.2498 ≤ toVoltage 310 ∧ toVoltage 310 < 0.2499) ∧
    (24.98 ≤ toTemperature (toVoltage 310) ∧ toTemperature (toVoltage 310) < 24.99) ∧
    (∀ (env : Env) (total : ℚ) (s : State),
      (sampleLoop env 1 total s).1 = total + toTemperature (toVoltage (env.adc s.reads))) := by
  refine ⟨?_, ?_, ?_, ?_, ?_, ⟨?_, ?_⟩, ⟨?_, ?_⟩, ?_⟩
  · norm_num [V_REF]
  · norm_num [ADC_RESOLUTION]
  · norm_num [LM35_SCALE]
  · norm_num [toVoltage, V_REF, ADC_RESOLUTION]
  · norm_num [toTemperature, toVoltage, V_REF, ADC_RESOLUTION, LM35_SCALE]
  · norm_num [toVoltage, V_REF, ADC_RESOLUTION]
  · norm_num [toVoltage, V_REF, ADC_RESOLUTION]
  · norm_num [toTemperature, toVoltage, V_REF, ADC_RESOLUTION, LM35_SCALE]
  · norm_num [toTemperature, toVoltage, V_REF, ADC_RESOLUTION, LM35_SCALE]
  · intro env total s
    have h := (sampleLoop_spec env 1 total s).1
    simpa using h

/-- In the exact-arithmetic model of the sampling loop: when the connected
branch runs, the analog input is read exactly `NUM_READINGS` = 10 times, the
computed average is the unweighted mean of the ten converted readings, and
with ten readings of 310 that exact mean rounds to 24.98 at two decimals.
Nothing is said here about the single-precision value the device computes or
about the text `String(float)` makes of it. -/
theorem exact_average_is_mean (env : Env) (hc : connectedAfterWindow env = true) :
    NUM_READINGS = 10 ∧
    (setupActions env).countP Action.isAnalogRead = NUM_READINGS ∧
    computedAverage env
      = (∑ i in Finset.range NUM_READINGS,
          (env.adc i : ℚ) * (V_REF / (ADC_RESOLUTION : ℚ)) / LM35_SCALE) / (NUM_READINGS : ℚ) ∧
    ((∀ i, i < NUM_READINGS → env.adc i = 310) → round (computedAverage env * 100) = 2498) := by
  obtain ⟨_, _, ha, _⟩ := setup_shape env
  refine ⟨rfl, ?_, ?_, ?_⟩
  · rw [ha, hc, countP_shape _ _ _ 0 0 NUM_READINGS (by decide) (by decide)
      (countP_tailActs_true_analogRead env)]
    simp
  · rw [computedAverage_eq]
    rfl
  · intro h310
    rw [computedAverage_eq, meanTemperature_eq]
    have hsum : (∑ i in Finset.range NUM_READINGS, env.adc i) = 3100 := by
      rw [Finset.sum_congr rfl (fun i hi => h310 i (Finset.mem_range.mp hi))]
      simp [NUM_READINGS]
    rw [hsum, round_eq, Int.floor_eq_iff]
    constructor <;> norm_num

/-- C10: with the ten raw readings in [0, ADC_RESOLUTION] the computed average
lies in [0, 330]; it is 0 only if every reading is 0 and 330 only if every
reading is 4095; and an environment whose readings are pointwise at least as
large never has a smaller average. -/
theorem C10_average_range_and_monotone (env : Env)
    (hr : ∀ i, i < NUM_READINGS → 0 ≤ env.adc i ∧ env.adc i ≤ ADC_RESOLUTION) :
    0 ≤ computedAverage env ∧ computedAverage env ≤ 330 ∧
    (computedAverage env = 0 → ∀ i, i < NUM_READINGS → env.adc i = 0) ∧
    (computedAverage env = 330 → ∀ i, i < NUM_READINGS → env.adc i = ADC_RESOLUTION) ∧
    (∀ env2 : Env, (∀ i, i < NUM_READINGS → env.adc i ≤ env2.adc i) →
      computedAverage env ≤ computedAverage env2) := by
  have hnonneg : 0 ≤ ∑ i in Finset.range NUM_READINGS, env.adc i :=
    Finset.sum_nonneg (fun i hi => (hr i (Finset.mem_range.mp hi)).1)
  have hgap : 0 ≤ ∑ i in Finset.range NUM_READINGS, (ADC_RESOLUTION - env.adc i) :=
    Finset.sum_nonneg (fun i hi => sub_nonneg.mpr (hr i (Finset.mem_range.mp hi)).2)
  have hgapeq : ∑ i in Finset.range NUM_READINGS, (ADC_RESOLUTION - env.adc i)
      = 40950 - ∑ i in Finset.range NUM_READINGS, env.adc i := by
    rw [Finset.sum_sub_distrib]
    simp [NUM_READINGS, ADC_RESOLUTION]
  have hle : ∑ i in Finset.range NUM_READINGS, env.adc i ≤ 40950 := by
    rw [hgapeq] at hgap
    omega
  have hq : (0 : ℚ) ≤ ((∑ i in Finset.range NUM_READINGS, env.adc i : ℤ) : ℚ) := by
    exact_mod_cast hnonneg
  have hq2 : ((∑ i in Finset.range NUM_READINGS, env.adc i : ℤ) : ℚ) ≤ 40950 := by
    exact_mod_cast hle
  rw [computedAverage_eq, meanTemperature_eq]
  refine ⟨by positivity, by linarith, ?_, ?_, ?_⟩
  · intro h0 i hi
    have hz : ((∑ i in Finset.range NUM_READINGS, env.adc i : ℤ) : ℚ) = 0 := by linarith
    have hz2 : ∑ i in Finset.range NUM_READINGS, env.adc i = 0 := by exact_mod_cast hz
    exact (Finset.sum_eq_zero_iff_of_nonneg
      (fun j hj => (hr j (Finset.mem_range.mp hj)).1)).mp hz2 i (Finset.mem_range.mpr hi)
  · intro h330 i hi
    have hz : ((∑ i in Finset.range NUM_READINGS, env.adc i : ℤ) : ℚ) = 40950 := by linarith
    have hz2 : ∑ i in Finset.range NUM_READINGS, env.adc i = 40950 := by exact_mod_cast hz
    have hz3 : ∑ i in Finset.range NUM_READINGS, (ADC_RESOLUTION - env.adc i) = 0 := by
      rw [hgapeq, hz2]
      rfl
    have := (Finset.sum_eq_zero_iff_of_nonneg
      (fun j hj => sub_nonneg.mpr (hr j (Finset.mem_range.mp hj)).2)).mp hz3 i
        (Finset.mem_range.mpr hi)
    omega
  · intro env2 hmono
    rw [computedAverage_eq, meanTemperature_eq]
    have hs : ∑ i in Finset.range NUM_READINGS, env.adc i
        ≤ ∑ i in Finset.range NUM_READINGS, env2.adc i :=
      Finset.sum_le_sum (fun i hi => hmono i (Finset.mem_range.mp hi))
    have hsq : ((∑ i in Finset.range NUM_READINGS, env.adc i : ℤ) : ℚ)
        ≤ ((∑ i in Finset.range NUM_READINGS, env2.adc i : ℤ) : ℚ) := by
      exact_mod_cast hs
    linarith

/-- Witness for C10: ten readings of 310 lie in range. -/
theorem C10_average_range_and_monotone_witness :
    (∀ i, i < NUM_READINGS → 0 ≤ connectEnv.adc i ∧ connectEnv.adc i ≤ ADC_RESOLUTION) ∧
    0 ≤ computedAverage connectEnv ∧ computedAverage connectEnv ≤ 330 :=
  have hr : ∀ i, i < NUM_READINGS → 0 ≤ connectEnv.adc i ∧ connectEnv.adc i ≤ ADC_RESOLUTION :=
    fun _ _ => ⟨(by decide : (0 : Int) ≤ 310), (by decide : (310 : Int) ≤ 4095)⟩
  ⟨hr, (C10_average_range_and_monotone connectEnv hr).1,
    (C10_average_range_and_monotone connectEnv hr).2.1⟩

/-! ## Temporal claims on the full trace -/

theorem mem_actionsOf (a : Action) (t : List Entry) :
    a ∈ actionsOf t ↔ Entry.act a ∈ t := by
  induction t with
  | nil => simp [actionsOf]
  | cons e t ih =>
    cases e <;> simp_all [actionsOf, Entry.action?, List.filterMap_cons]

theorem mem_pollsOf (b : Bool) (t : List Entry) :
    b ∈ pollsOf t ↔ Entry.poll b ∈ t := by
  induction t with
  | nil => simp [pollsOf]
  | cons e t ih =>
    cases e <;> simp_all [pollsOf, Entry.poll?, List.filterMap_cons]

theorem mem_progOf (e : Entry) (t : List Entry) (he : e.isProgram = true) :
    e ∈ progOf t ↔ e ∈ t := by
  simp [progOf, he]

theorem poll_true_not_mem_window (k : Nat) :
    Entry.poll true ∉ bootProg ++ attemptsProg k := by
  rw [← mem_pollsOf, pollsOf_append, pollsOf_attemptsProg]
  have hb : pollsOf bootProg = [] := rfl
  simp [hb, List.mem_replicate]

theorem poll_true_not_mem_tail (env : Env) (c : Bool) :
    Entry.poll true ∉ tailProg env c := by
  rw [← mem_pollsOf, pollsOf_tailProg]
  simp

theorem start_not_mem_tail (env : Env) (c : Bool) :
    Entry.act Action.advertisingStart ∉ tailProg env c := by
  rw [← mem_actionsOf, actionsOf_tailProg]
  intro h
  have h0 := countP_tailActs_start env c
  rw [List.countP_eq_zero] at h0
  exact h0 _ h rfl

set_option maxRecDepth 100000 in
/-- C6, as stated, fails: a peer attaches and detaches within the first
one-second wait; the attach is among the first 17 entries of the trace, the
next poll reads false, and advertising is started again afterwards (the run
goes on to make all 60 attempts). -/
theorem C6_counterexample :
    Entry.peer PeerEvent.attach ∈ (setup blipEnv).trace.take 17 ∧
    Entry.act Action.advertisingStart ∈ (setup blipEnv).trace.drop 17 ∧
    attempts blipEnv = 60 := by
  decide

/-- C6, amended: once a poll of the advertising loop has read the flag as
true, no `advertising.start` is issued at any later point of the wake cycle,
whatever the peer does afterwards (in particular if it detaches before the
cycle sleeps). -/
theorem C6_no_advertising_after_observed_connection (env : Env) (pre post : List Entry)
    (h : (setup env).trace = pre ++ Entry.poll true :: post) :
    Entry.act Action.advertisingStart ∉ post := by
  obtain ⟨hle, hp, _, _⟩ := setup_shape env
  have hsplit : progOf (setup env).trace = progOf pre ++ Entry.poll true :: progOf post := by
    rw [h, progOf_append]
    rfl
  rw [hsplit, expectedProg] at hp
  by_cases hlt : attempts env < ADVERTISING_TIME
  · have hb : breakProg ADVERTISING_TIME (attempts env) = [Entry.poll true] := by
      simp [breakProg, hlt]
    rw [hb] at hp
    have hp2 : (bootProg ++ attemptsProg (attempts env))
        ++ Entry.poll true :: tailProg env (connectedAfterWindow env)
        = progOf pre ++ Entry.poll true :: progOf post := by
      rw [hp]
      simp
    have hpost := ((List.append_cons_inj_of_not_mem (poll_true_not_mem_window _)
      (poll_true_not_mem_tail env _)).mp hp2).2.2
    intro hmem
    have hmem2 : Entry.act Action.advertisingStart ∈ progOf post :=
      (mem_progOf (Entry.act Action.advertisingStart) post rfl).mpr hmem
    rw [← hpost] at hmem2
    exact start_not_mem_tail env _ hmem2
  · have hb : breakProg ADVERTISING_TIME (attempts env) = [] := by
      simp [breakProg, hlt]
    rw [hb, List.append_nil] at hp
    have hin : Entry.poll true
        ∈ bootProg ++ attemptsProg (attempts env) ++ tailProg env (connectedAfterWindow env) := by
      rw [← hp]
      simp
    rw [List.mem_append] at hin
    rcases hin with hin | hin
    · exact absurd hin (poll_true_not_mem_window _)
    · exact absurd hin (poll_true_not_mem_tail env _)

set_option maxRecDepth 100000 in
/-- Witness for C6: the peer attaches during the first wait; the poll of tick
1 is entry 18 of the trace and no advertising start follows it. -/
theorem C6_no_advertising_after_observed_connection_witness :
    (setup connectEnv).trace
        = (setup connectEnv).trace.take 18 ++ Entry.poll true :: (setup connectEnv).trace.drop 19 ∧
    Entry.act Action.advertisingStart ∉ (setup connectEnv).trace.drop 19 :=
  ⟨by decide,
    C6_no_advertising_after_observed_connection connectEnv
      ((setup connectEnv).trace.take 18) ((setup connectEnv).trace.drop 19) (by decide)⟩

/-! ## The indicator -/

theorem ledLevel_of_lit (t pre post : List Entry) (a : Action) (lvl : Option Level)
    (hlit : litWhileAdvertising lvl t) (ht : t = pre ++ Entry.act a :: post)
    (hpre : ∀ b, Entry.check b ∉ pre)
    (ha : a = Action.advertisingStart ∨ a = Action.delay 1000) :
    pre.foldl ledStep lvl = some Level.HIGH := by
  induction pre generalizing t lvl with
  | nil =>
    subst ht
    rcases ha with rfl | rfl
    · exact hlit.1 _ rfl (Or.inl rfl)
    · exact hlit.1 _ rfl (Or.inr rfl)
  | cons e pre ih =>
    subst ht
    have hpre2 : ∀ b, Entry.check b ∉ pre := fun b hb => hpre b (List.mem_cons_of_mem _ hb)
    have hne : ∀ b, e ≠ Entry.check b := fun b hb => hpre b (hb ▸ List.mem_cons_self _ _)
    rw [List.foldl_cons]
    refine ih _ (ledStep lvl e) ?_ rfl hpre2
    cases e with
    | check b => exact absurd rfl (hne b)
    | peer _ => exact hlit.2
    | cbPrintln _ => exact hlit.2
    | poll _ => exact hlit.2
    | act _ => exact hlit.2

theorem lit_tail (env : Env) (c : Bool) (lvl : Option Level) :
    litWhileAdvertising lvl (tailProg env c) := by
  simp [tailProg, litWhileAdvertising]

theorem lit_break_tail (env : Env) (c : Bool) (n k : Nat) (lvl : Option Level) :
    litWhileAdvertising lvl (breakProg n k ++ tailProg env c) := by
  unfold breakProg
  split
  · simp [tailProg, litWhileAdvertising]
  · simpa using lit_tail env c lvl

theorem lit_attempts (k : Nat) (rest : List Entry)
    (hrest : ∀ lvl, litWhileAdvertising lvl rest) (lvl : Option Level) :
    litWhileAdvertising lvl (attemptsProg k ++ rest) := by
  induction k generalizing lvl with
  | zero => simpa [attemptsProg] using hrest lvl
  | succ k ih =>
    have h := ih (some Level.HIGH)
    simp [attemptsProg, attemptProg, litWhileAdvertising, ledStep, h]

theorem lit_expectedProg (env : Env) (k : Nat) (c : Bool) :
    litWhileAdvertising none (expectedProg env k c) := by
  have h := lit_attempts k (breakProg ADVERTISING_TIME k ++ tailProg env c)
    (lit_break_tail env c _ _) none
  simp [expectedProg, bootProg, litWhileAdvertising, ledStep, h, INDICATOR_LED, TEMP_SENSOR]

theorem foldl_ledStep_of_no_write (t : List Entry) (lvl : Option Level)
    (h : ∀ a, Entry.act a ∈ t → a.isIndicatorWrite = false) :
    t.foldl ledStep lvl = lvl := by
  induction t generalizing lvl with
  | nil => rfl
  | cons e t ih =>
    have ht : ∀ a, Entry.act a ∈ t → a.isIndicatorWrite = false :=
      fun a ha => h a (List.mem_cons_of_mem _ ha)
    rw [List.foldl_cons]
    have he : ledStep lvl e = lvl := by
      cases e with
      | act a =>
        have h1 := h a (List.mem_cons_self _ _)
        clear h ht ih
        cases a with
        | digitalWrite pin l =>
          have hne : pin ≠ INDICATOR_LED := by
            simpa [Action.isIndicatorWrite] using h1
          simp only [ledStep, hne, if_false]
        | _ => rfl
      | _ => rfl
    rw [he]
    exact ih lvl ht

theorem actionsOf_tail_tailProg (env : Env) (c : Bool) :
    actionsOf (tailProg env c).tail = branchActs env c ++ sleepActs := by
  have h := actionsOf_tailProg env c
  rw [tailActs_eq] at h
  have h2 : tailProg env c
      = Entry.act (Action.digitalWrite INDICATOR_LED Level.LOW) :: (tailProg env c).tail := by
    simp [tailProg]
  rw [h2] at h
  simpa [actionsOf, Entry.action?] using h

theorem tailProg_eq (env : Env) (c : Bool) :
    tailProg env c
      = Entry.act (Action.digitalWrite INDICATOR_LED Level.LOW) :: (tailProg env c).tail := by
  simp [tailProg]

theorem rest_no_write_no_start (env : Env) (c : Bool) (a : Action)
    (ha : Entry.act a ∈ (tailProg env c).tail) :
    a.isIndicatorWrite = false ∧ a.isAdvertisingStart = false := by
  rw [← mem_actionsOf, actionsOf_tail_tailProg] at ha
  have hw : (branchActs env c ++ sleepActs).countP Action.isIndicatorWrite = 0 := by
    cases c
    · rfl
    · rw [List.countP_append]
      show (publishActs _).countP Action.isIndicatorWrite + _ = 0
      rw [countP_publishActs Action.isIndicatorWrite _ 0 0 0 rfl rfl rfl]
      rfl
  have hs : (branchActs env c ++ sleepActs).countP Action.isAdvertisingStart = 0 := by
    rw [List.countP_append, countP_branchActs_start]
    rfl
  rw [List.countP_eq_zero] at hw hs
  exact ⟨by simpa using hw a ha, by simpa using hs a ha⟩

theorem window_actions (k : Nat) (p : Action → Bool)
    (hb : bootActs.countP p = 0)
    (ha : [Action.digitalWrite INDICATOR_LED Level.HIGH, Action.advertisingStart,
            Action.delay 1000].countP p = 0)
    (a : Action)
    (hmem : Entry.act a ∈ bootProg ++ (attemptsProg k ++ breakProg ADVERTISING_TIME k)) :
    p a = false := by
  rw [← mem_actionsOf, actionsOf_append, actionsOf_append, actionsOf_attemptsProg,
    actionsOf_breakProg, List.append_nil] at hmem
  have h0 : (bootActs ++ attemptsActs k ++ []).countP p = 0 := by
    rw [countP_shape p k [] 0 0 0 hb ha rfl]
    simp
  rw [List.append_nil, List.countP_eq_zero] at h0
  simpa using h0 a hmem

/-- C8: at every `advertising.start` and every one-second wait of the
advertising loop the indicator is high; the window (bootstrap and loop)
contains no write of low and no sampling, publish or sleep action; the write
of low is the first program step after the loop, whether the loop ended by a
poll that saw the connection or by exhausting its 60 attempts; after it the
indicator is not written again, so it is low when the device enters deep
sleep. -/
theorem C8_indicator_tracks_advertising (env : Env) :
    (∀ pre a post, progOf (setup env).trace = pre ++ Entry.act a :: post →
      (∀ b, Entry.check b ∉ pre) →
      (a = Action.advertisingStart ∨ a = Action.delay 1000) →
      ledLevel pre = some Level.HIGH) ∧
    (∃ rest, progOf (setup env).trace
        = bootProg
          ++ (attemptsProg (attempts env) ++ breakProg ADVERTISING_TIME (attempts env))
          ++ Entry.act (Action.digitalWrite INDICATOR_LED Level.LOW) :: rest ∧
      (∀ a, Entry.act a ∈ rest → a.isIndicatorWrite = false ∧ a.isAdvertisingStart = false)) ∧
    (∀ a, Entry.act a
        ∈ bootProg ++ (attemptsProg (attempts env) ++ breakProg ADVERTISING_TIME (attempts env)) →
      a ≠ Action.digitalWrite INDICATOR_LED Level.LOW ∧
      a.isAnalogRead = false ∧ a.isSetValue = false ∧ a.isNotify = false ∧
      a.isTimerWake = false ∧ a.isDeepSleep = false) ∧
    ledLevel (progOf (setup env).trace) = some Level.LOW := by
  obtain ⟨_, hp, _, _⟩ := setup_shape env
  have hshape : progOf (setup env).trace
      = bootProg
        ++ (attemptsProg (attempts env) ++ breakProg ADVERTISING_TIME (attempts env))
        ++ Entry.act (Action.digitalWrite INDICATOR_LED Level.LOW)
          :: (tailProg env (connectedAfterWindow env)).tail := by
    rw [hp, expectedProg, ← tailProg_eq]
  refine ⟨?_, ⟨_, hshape, rest_no_write_no_start env _⟩, ?_, ?_⟩
  · intro pre a post hsplit hpre ha
    exact ledLevel_of_lit _ pre post a none
      (hp ▸ lit_expectedProg env (attempts env) (connectedAfterWindow env)) hsplit hpre ha
  · intro a hmem
    refine ⟨?_, window_actions _ _ (by decide) (by decide) a hmem,
      window_actions _ _ (by decide) (by decide) a hmem,
      window_actions _ _ (by decide) (by decide) a hmem,
      window_actions _ _ (by decide) (by decide) a hmem,
      window_actions _ _ (by decide) (by decide) a hmem⟩
    intro heq
    have h := window_actions (attempts env)
      (fun x => decide (x = Action.digitalWrite INDICATOR_LED Level.LOW))
      (by decide) (by decide) a hmem
    simp [heq] at h
  · rw [hshape, ledLevel, List.foldl_append, List.foldl_cons,
      foldl_ledStep_of_no_write _ _ (fun a ha => (rest_no_write_no_start env _ a ha).1)]
    simp [ledStep]

end BeverageNotifier
